import Mathlib

/-!
Verification of the replay-buffer, policy and metrics-callback components of
the deep-pack library (`deep_pack/common/buffers.py`,
`deep_pack/ddqn/policies.py`, `deep_pack/common/callbacks.py`).

Shallow embedding conventions:
* a numpy array indexed by `(slot, env)` becomes a function `Nat → Nat → Int`
  (one scalar stands in for the per-cell observation/action payload);
* the draws of `np.random.randint` become explicit `Nat` arguments constrained
  to the support of the distribution in the theorems;
* Python exceptions (`raise ValueError`, failed `assert`) become `Except`
  values returned by the constructor functions.
-/

/-- A Python exception raised during buffer construction: either a
`ValueError` or a failed `assert` statement (`AssertionError`). -/
inductive BufferInitError where
  | valueError : String → BufferInitError
  | assertionError : String → BufferInitError
deriving DecidableEq

/-- State of `ReplayBuffer` (buffers.py, class `ReplayBuffer`): the storage
arrays, the circular write pointer `pos`, the `full` flag and the two option
flags.  Arrays are total functions on slot/env indices; only indices below
`buffer_size` and `n_envs` are meaningful. -/
structure ReplayBuffer where
  buffer_size : Nat
  n_envs : Nat
  optimize_memory_usage : Bool
  handle_timeout_termination : Bool
  pos : Nat
  full : Bool
  observations : Nat → Nat → Int
  next_observations : Nat → Nat → Int
  actions : Nat → Nat → Int
  rewards : Nat → Nat → Int
  dones : Nat → Nat → Int
  timeouts : Nat → Nat → Int
  truth_masks : Nat → Nat → Nat → Int

/-- The message of the `ValueError` raised by `ReplayBuffer.__init__`
(buffers.py line 74). -/
def replayBufferFlagErrMsg : String :=
  "ReplayBuffer does not support optimize_memory_usage = True and handle_timeout_termination = True simultaneously."

/-- The message of the failed assertion in `DictReplayBuffer.__init__`
(buffers.py line 256). -/
def dictBufferAssertMsg : String :=
  "DictReplayBuffer does not support optimize_memory_usage"

/-- `ReplayBuffer.__init__` (buffers.py lines 52-113).  It first adjusts the
per-environment capacity to `max(buffer_size // n_envs, 1)`, then raises a
`ValueError` when both `optimize_memory_usage` and
`handle_timeout_termination` are requested, and otherwise allocates the
zero-initialised arrays with `pos = 0` and `full = False`.  (The psutil
memory check only emits a warning and is not modelled.) -/
def mkReplayBuffer (buffer_size n_envs : Nat)
    (optimize_memory_usage handle_timeout_termination : Bool) :
    Except BufferInitError ReplayBuffer :=
  let adjusted := max (buffer_size / n_envs) 1
  if optimize_memory_usage && handle_timeout_termination then
    .error (.valueError replayBufferFlagErrMsg)
  else
    .ok
      { buffer_size := adjusted
        n_envs := n_envs
        optimize_memory_usage := optimize_memory_usage
        handle_timeout_termination := handle_timeout_termination
        pos := 0
        full := false
        observations := fun _ _ => 0
        next_observations := fun _ _ => 0
        actions := fun _ _ => 0
        rewards := fun _ _ => 0
        dones := fun _ _ => 0
        timeouts := fun _ _ => 0
        truth_masks := fun _ _ _ => 0 }

/-- `arr[i] = row`: overwrite slot `i` of a `(slot, env)`-indexed array with a
whole per-environment row, as numpy assignment `self.xs[self.pos] = v` does. -/
def writeRow (f : Nat → Nat → Int) (i : Nat) (g : Nat → Int) : Nat → Nat → Int :=
  fun s e => if s = i then g e else f s e

/-- Same as `writeRow` for the `(slot, env, action)`-indexed mask array. -/
def writeRow3 (f : Nat → Nat → Nat → Int) (i : Nat) (g : Nat → Nat → Int) :
    Nat → Nat → Nat → Int :=
  fun s e a => if s = i then g e a else f s e a

/-- `ReplayBuffer.add` (buffers.py lines 115-154).  Writes one transition at
slot `pos`: in memory-optimised mode the next observation is aliased into
`observations[(pos + 1) % buffer_size]`, otherwise it goes to
`next_observations[pos]`; `timeouts[pos]` is only written when
`handle_timeout_termination` is on, from the `TimeLimit.truncated` info flags.
Finally `pos` is incremented and reset to `0` (setting `full`) when it reaches
`buffer_size`. -/
def ReplayBuffer.add (b : ReplayBuffer)
    (obs next_obs action reward done : Nat → Int)
    (infosTruncated : Nat → Bool) (truth_mask : Nat → Nat → Int) : ReplayBuffer :=
  let obs1 := writeRow b.observations b.pos obs
  let obs2 :=
    if b.optimize_memory_usage then
      writeRow obs1 ((b.pos + 1) % b.buffer_size) next_obs
    else obs1
  let nextObs1 :=
    if b.optimize_memory_usage then b.next_observations
    else writeRow b.next_observations b.pos next_obs
  let timeouts1 :=
    if b.handle_timeout_termination then
      writeRow b.timeouts b.pos (fun e => if infosTruncated e then 1 else 0)
    else b.timeouts
  { b with
    observations := obs2
    next_observations := nextObs1
    actions := writeRow b.actions b.pos action
    rewards := writeRow b.rewards b.pos reward
    dones := writeRow b.dones b.pos done
    timeouts := timeouts1
    truth_masks := writeRow3 b.truth_masks b.pos truth_mask
    pos := if b.pos + 1 = b.buffer_size then 0 else b.pos + 1
    full := if b.pos + 1 = b.buffer_size then true else b.full }

/-- The arguments of one `ReplayBuffer.add` call, bundled so that sequences of
calls can be folded over. -/
structure AddArgs where
  obs : Nat → Int
  next_obs : Nat → Int
  action : Nat → Int
  reward : Nat → Int
  done : Nat → Int
  infosTruncated : Nat → Bool
  truth_mask : Nat → Nat → Int

/-- Perform one bundled `add` call. -/
def applyAdd (b : ReplayBuffer) (a : AddArgs) : ReplayBuffer :=
  b.add a.obs a.next_obs a.action a.reward a.done a.infosTruncated a.truth_mask

/-- Perform a sequence of `add` calls, oldest first. -/
def addMany (b : ReplayBuffer) (ops : List AddArgs) : ReplayBuffer :=
  ops.foldl applyAdd b

/-- The batch index produced by `ReplayBuffer.sample` in memory-optimised
mode (buffers.py lines 172-175) from one raw draw `r` of
`np.random.randint`: when the buffer is full the code computes
`(randint(1, buffer_size) + pos) % buffer_size`, otherwise it uses
`randint(0, pos)` directly. -/
def ReplayBuffer.sampleIndex (b : ReplayBuffer) (r : Nat) : Nat :=
  if b.full then (r + b.pos) % b.buffer_size else r

/-- The support of the raw `randint` draw used by `ReplayBuffer.sample` in
memory-optimised mode: `[1, buffer_size)` when full, `[0, pos)` otherwise. -/
def ReplayBuffer.sampleDrawSupport (b : ReplayBuffer) (r : Nat) : Prop :=
  if b.full then 1 ≤ r ∧ r < b.buffer_size else r < b.pos

/-- The batch returned by `ReplayBuffer._get_samples` (buffers.py lines
178-197), one list entry per `(batch index, env index)` pair. -/
structure Samples where
  observations : List Int
  actions : List Int
  next_observations : List Int
  dones : List Int
  rewards : List Int
  truth_masks : List (Nat → Int)

/-- `ReplayBuffer._get_samples` (buffers.py lines 178-197).  The random env
indices drawn at line 180 are modelled by pairing each batch index with its
env index.  In memory-optimised mode the next observation of index `i` is
read from `observations[(i + 1) % buffer_size]`; the returned terminal signal
is `dones * (1 - timeouts)`.  (Normalisation by a `VecNormalize` env is the
identity when `env is None`, the only case this repository exercises.) -/
def ReplayBuffer.getSamples (b : ReplayBuffer) (inds : List (Nat × Nat)) : Samples :=
  { observations := inds.map fun p => b.observations p.1 p.2
    actions := inds.map fun p => b.actions p.1 p.2
    next_observations := inds.map fun p =>
      if b.optimize_memory_usage then b.observations ((p.1 + 1) % b.buffer_size) p.2
      else b.next_observations p.1 p.2
    dones := inds.map fun p => b.dones p.1 p.2 * (1 - b.timeouts p.1 p.2)
    rewards := inds.map fun p => b.rewards p.1 p.2
    truth_masks := inds.map fun p => b.truth_masks p.1 p.2 }

/-- State of `DictReplayBuffer` (buffers.py, class `DictReplayBuffer`):
identical to `ReplayBuffer` except that the observation arrays are keyed by
the dictionary-observation keys.  `optimize_memory_usage` is kept as a field
(the code stores it at line 259) even though construction rejects `True`. -/
structure DictReplayBuffer where
  buffer_size : Nat
  n_envs : Nat
  optimize_memory_usage : Bool
  handle_timeout_termination : Bool
  pos : Nat
  full : Bool
  observations : String → Nat → Nat → Int
  next_observations : String → Nat → Nat → Int
  actions : Nat → Nat → Int
  rewards : Nat → Nat → Int
  dones : Nat → Nat → Int
  timeouts : Nat → Nat → Int
  truth_masks : Nat → Nat → Nat → Int

/-- `DictReplayBuffer.__init__` (buffers.py lines 237-301).  After adjusting
`buffer_size` it asserts `not optimize_memory_usage` (an `AssertionError` for
every value of `handle_timeout_termination`), then allocates the arrays.
The `isinstance(self.obs_shape, dict)` assertion is discharged by typing:
this model only constructs dict-observation buffers. -/
def mkDictReplayBuffer (buffer_size n_envs : Nat)
    (optimize_memory_usage handle_timeout_termination : Bool) :
    Except BufferInitError DictReplayBuffer :=
  let adjusted := max (buffer_size / n_envs) 1
  if optimize_memory_usage then
    .error (.assertionError dictBufferAssertMsg)
  else
    .ok
      { buffer_size := adjusted
        n_envs := n_envs
        optimize_memory_usage := optimize_memory_usage
        handle_timeout_termination := handle_timeout_termination
        pos := 0
        full := false
        observations := fun _ _ _ => 0
        next_observations := fun _ _ _ => 0
        actions := fun _ _ => 0
        rewards := fun _ _ => 0
        dones := fun _ _ => 0
        timeouts := fun _ _ => 0
        truth_masks := fun _ _ _ => 0 }

/-- `arr[key][i] = row` for the key-indexed dict-observation arrays. -/
def writeDictRow (f : String → Nat → Nat → Int) (i : Nat) (g : String → Nat → Int) :
    String → Nat → Nat → Int :=
  fun k s e => if s = i then g k e else f k s e

/-- `DictReplayBuffer.add` (buffers.py lines 303-341): writes every
observation key at slot `pos`, the per-key next observations into the
separate `next_observations` arrays (there is no memory-optimised aliasing),
the scalar arrays at `pos`, `timeouts[pos]` only under
`handle_timeout_termination`, then advances the circular pointer exactly as
`ReplayBuffer.add` does. -/
def DictReplayBuffer.add (b : DictReplayBuffer)
    (obs next_obs : String → Nat → Int) (action reward done : Nat → Int)
    (infosTruncated : Nat → Bool) (truth_mask : Nat → Nat → Int) : DictReplayBuffer :=
  let timeouts1 :=
    if b.handle_timeout_termination then
      writeRow b.timeouts b.pos (fun e => if infosTruncated e then 1 else 0)
    else b.timeouts
  { b with
    observations := writeDictRow b.observations b.pos obs
    next_observations := writeDictRow b.next_observations b.pos next_obs
    actions := writeRow b.actions b.pos action
    rewards := writeRow b.rewards b.pos reward
    dones := writeRow b.dones b.pos done
    timeouts := timeouts1
    truth_masks := writeRow3 b.truth_masks b.pos truth_mask
    pos := if b.pos + 1 = b.buffer_size then 0 else b.pos + 1
    full := if b.pos + 1 = b.buffer_size then true else b.full }

/-- Arguments of one `DictReplayBuffer.add` call. -/
structure DictAddArgs where
  obs : String → Nat → Int
  next_obs : String → Nat → Int
  action : Nat → Int
  reward : Nat → Int
  done : Nat → Int
  infosTruncated : Nat → Bool
  truth_mask : Nat → Nat → Int

/-- Perform one bundled `DictReplayBuffer.add` call. -/
def applyDictAdd (b : DictReplayBuffer) (a : DictAddArgs) : DictReplayBuffer :=
  b.add a.obs a.next_obs a.action a.reward a.done a.infosTruncated a.truth_mask

/-- Perform a sequence of `DictReplayBuffer.add` calls, oldest first. -/
def dictAddMany (b : DictReplayBuffer) (ops : List DictAddArgs) : DictReplayBuffer :=
  ops.foldl applyDictAdd b

/-- The batch returned by `DictReplayBuffer._get_samples` (buffers.py lines
358-389), one entry per `(batch index, env index)` pair. -/
structure DictSamples where
  observations : List (String → Int)
  actions : List Int
  next_observations : List (String → Int)
  dones : List Int
  rewards : List Int
  truth_masks : List (Nat → Int)

/-- `DictReplayBuffer._get_samples` (buffers.py lines 358-389): reads each
key of `observations`/`next_observations` at the given indices and returns
the terminal signal `dones * (1 - timeouts)`. -/
def DictReplayBuffer.getSamples (b : DictReplayBuffer) (inds : List (Nat × Nat)) :
    DictSamples :=
  { observations := inds.map fun p k => b.observations k p.1 p.2
    actions := inds.map fun p => b.actions p.1 p.2
    next_observations := inds.map fun p k => b.next_observations k p.1 p.2
    dones := inds.map fun p => b.dones p.1 p.2 * (1 - b.timeouts p.1 p.2)
    rewards := inds.map fun p => b.rewards p.1 p.2
    truth_masks := inds.map fun p => b.truth_masks p.1 p.2 }

/-- The four feature-extraction network classes registered in
`DQNPolicy.network_aliases` (policies.py lines 137-142), as atomic tags. -/
inductive NetworkClass where
  | CnnMlpNetwork1 : NetworkClass
  | CnnMlpNetwork2 : NetworkClass
  | CnnMlpNetwork3 : NetworkClass
  | CnnMlpNetwork4 : NetworkClass
deriving DecidableEq

/-- The `network_aliases` class dictionary of `DQNPolicy` (policies.py lines
137-142), as an association list. -/
def network_aliases : List (String × NetworkClass) :=
  [("CnnMlpNetwork1", NetworkClass.CnnMlpNetwork1),
   ("CnnMlpNetwork2", NetworkClass.CnnMlpNetwork2),
   ("CnnMlpNetwork3", NetworkClass.CnnMlpNetwork3),
   ("CnnMlpNetwork4", NetworkClass.CnnMlpNetwork4)]

/-- `DQNPolicy._get_network_from_name` (policies.py lines 196-206): a dict
lookup in `network_aliases`, raising `ValueError` on an unknown name. -/
def getNetworkFromName (network_name : String) : Except String NetworkClass :=
  match network_aliases.find? (fun p => p.1 == network_name) with
  | some p => .ok p.2
  | none => .error ("Policy " ++ network_name ++ " unknown")

/-- The network-class resolution performed by `DQNPolicy.__init__`
(policies.py lines 160-163): a string argument goes through
`_get_network_from_name`, a class argument is used as is. -/
def DQNPolicy.resolveNetwork : String ⊕ NetworkClass → Except String NetworkClass
  | .inl name => getNetworkFromName name
  | .inr cls => .ok cls

/-- Index of the first maximal element: tail of `torch.argmax` over one row,
carrying the running best value `bv` at index `best`, with `i` the index of
the head of the remaining list. -/
def argmaxFrom : Int → Nat → Nat → List Int → Nat
  | _, _, best, [] => best
  | bv, i, best, x :: xs =>
    if bv < x then argmaxFrom x (i + 1) i xs else argmaxFrom bv (i + 1) best xs

/-- `tensor.argmax(dim=1)` on one row: the index of the first maximal entry
(0 on an empty row). -/
def argmaxIdx : List Int → Nat
  | [] => 0
  | x :: xs => argmaxFrom x 1 0 xs

/-- `th.where(observation[MASK] == 1, q_values, self.mask_replace_coef)`
(policies.py line 93) on one row. -/
def maskedQValues (coef : Int) (mask qvals : List Int) : List Int :=
  List.zipWith (fun m q => if m = 1 then q else coef) mask qvals

/-- `QNetwork._predict` (policies.py lines 91-97) on one batch row: the
q-values of the network are an input (the network itself is a learned
function with no further specification); entries whose mask is not 1 are
replaced by `mask_replace_coef` and the greedy action is the argmax of the
result. -/
def QNetwork.predictAction (coef : Int) (mask qvals : List Int) : Nat :=
  argmaxIdx (maskedQValues coef mask qvals)

/-- The default value of `mask_replace_coef` (policies.py lines 52 and 158). -/
def defaultMaskReplaceCoef : Int := -15

/-- A text file handle opened for writing: rows already flushed to disk and
rows still pending in the user-space buffer. -/
structure CsvFile where
  flushed : List (List String)
  pending : List (List String)

/-- Append one CSV row to the handle buffer (`csv.DictWriter` emits the
values in `fieldnames` order, one row per call). -/
def CsvFile.writeRowBuf (f : CsvFile) (row : List String) : CsvFile :=
  { f with pending := f.pending ++ [row] }

/-- `file.flush()`: move every pending row to disk. -/
def CsvFile.flushFile (f : CsvFile) : CsvFile :=
  { flushed := f.flushed ++ f.pending, pending := [] }

/-- The `fieldnames` tuple of the `csv.DictWriter` in `MetricsCallback.__init__`
(callbacks.py lines 26-34). -/
def metricsFieldnames : List String :=
  ["timesteps", "ep_rew_mean", "ep_PE_mean", "exploration_rate",
   "loss", "n_updates", "learning_rate"]

/-- State of `MetricsCallback`: its open file handle. -/
structure MetricsCallback where
  file_handler : CsvFile

/-- `MetricsCallback.__init__` (callbacks.py lines 16-36): the file is opened
with mode `"w"` (truncated to empty), `writeheader()` writes the header row
once, and the handle is flushed. -/
def MetricsCallback.construct : MetricsCallback :=
  { file_handler := (CsvFile.writeRowBuf { flushed := [], pending := [] }
      metricsFieldnames).flushFile }

/-- `MetricsCallback._on_rollout_end` (callbacks.py lines 41-52): build the
metrics dict from the model timestep counter and the logger values, write it
as one row (in `fieldnames` order, as `csv.DictWriter.writerow` does) and
flush.  `logger` maps a logger key to the printed value of
`self.logger.name_to_value[key]`. -/
def MetricsCallback.onRolloutEnd (cb : MetricsCallback)
    (num_timesteps : String) (logger : String → String) : MetricsCallback :=
  let metrics : String → String := fun field =>
    if field = "timesteps" then num_timesteps
    else if field = "ep_rew_mean" then logger "rollout/ep_rew_mean"
    else if field = "ep_PE_mean" then logger "rollout/ep_PE_mean"
    else if field = "exploration_rate" then logger "rollout/exploration_rate"
    else if field = "loss" then logger "train/loss"
    else if field = "n_updates" then logger "train/n_updates"
    else logger "train/learning_rate"
  { cb with
    file_handler :=
      (cb.file_handler.writeRowBuf (metricsFieldnames.map metrics)).flushFile }

/-- Whether a constructor call raised an exception. -/
def exceptIsError {ε α : Type} : Except ε α → Bool
  | .error _ => true
  | .ok _ => false

/-- Fields of a successfully constructed `ReplayBuffer`. -/
theorem mkReplayBuffer_ok_fields {bs ne : Nat} {omu htt : Bool} {b : ReplayBuffer}
    (h : mkReplayBuffer bs ne omu htt = .ok b) :
    b.pos = 0 ∧ b.buffer_size = max (bs / ne) 1 ∧ b.n_envs = ne ∧
      b.optimize_memory_usage = omu ∧ b.handle_timeout_termination = htt ∧
      b.full = false ∧ b.timeouts = (fun _ _ => 0) := by
  unfold mkReplayBuffer at h
  split at h
  · exact absurd h (by simp)
  · cases h
    exact ⟨rfl, rfl, rfl, rfl, rfl, rfl, rfl⟩

/-- Fields of a successfully constructed `DictReplayBuffer`. -/
theorem mkDictReplayBuffer_ok_fields {bs ne : Nat} {omu htt : Bool} {b : DictReplayBuffer}
    (h : mkDictReplayBuffer bs ne omu htt = .ok b) :
    b.pos = 0 ∧ b.buffer_size = max (bs / ne) 1 ∧ b.n_envs = ne ∧
      b.optimize_memory_usage = omu ∧ b.handle_timeout_termination = htt ∧
      b.full = false ∧ b.timeouts = (fun _ _ => 0) := by
  unfold mkDictReplayBuffer at h
  split at h
  · exact absurd h (by simp)
  · cases h
    exact ⟨rfl, rfl, rfl, rfl, rfl, rfl, rfl⟩

/-- C4: constructing a `ReplayBuffer` raises exactly when both
`optimize_memory_usage` and `handle_timeout_termination` are `True`, and the
exception is the `ValueError` of buffers.py line 74; every other flag
combination constructs without raising. -/
theorem replay_init_rejects_flag_combination (bs ne : Nat) (omu htt : Bool) :
    exceptIsError (mkReplayBuffer bs ne omu htt) = (omu && htt) ∧
    mkReplayBuffer bs ne true true = .error (.valueError replayBufferFlagErrMsg) := by
  constructor
  · cases omu <;> cases htt <;> simp [mkReplayBuffer, exceptIsError]
  · rfl

/-- C9: constructing a `DictReplayBuffer` with `optimize_memory_usage = True`
fails with an `AssertionError` for every value of
`handle_timeout_termination`, although `ReplayBuffer` accepts the combination
`optimize_memory_usage = True, handle_timeout_termination = False`. -/
theorem dict_init_rejects_memory_optimisation (bs ne : Nat) (htt : Bool) :
    mkDictReplayBuffer bs ne true htt = .error (.assertionError dictBufferAssertMsg) ∧
    exceptIsError (mkReplayBuffer bs ne true false) = false :=
  ⟨rfl, rfl⟩

/-- C10: every successfully constructed buffer has per-environment capacity
`max(buffer_size // n_envs, 1)`, hence at least 1; with requested capacity 5
and 2 environments the total storable count is 4 < 5. -/
theorem buffer_size_adjustment (bs ne : Nat) (omu htt : Bool) (h : 0 < ne) :
    (mkReplayBuffer bs ne omu htt).map ReplayBuffer.buffer_size
      = (mkReplayBuffer bs ne omu htt).map (fun _ => max (bs / ne) 1) ∧
    (mkDictReplayBuffer bs ne omu htt).map DictReplayBuffer.buffer_size
      = (mkDictReplayBuffer bs ne omu htt).map (fun _ => max (bs / ne) 1) ∧
    1 ≤ max (bs / ne) 1 ∧
    (mkReplayBuffer 5 2 false true).map (fun b => b.buffer_size * b.n_envs) = .ok 4 ∧
    4 < 5 := by
  refine ⟨?_, ?_, le_max_right _ _, rfl, by omega⟩
  · cases homu : omu <;> cases hhtt : htt <;> simp [mkReplayBuffer, Except.map]
  · cases homu : omu <;> simp [mkDictReplayBuffer, Except.map]

/-- Witness for C10 at requested capacity 5, two environments. -/
theorem buffer_size_adjustment_witness :
    (mkReplayBuffer 5 2 false true).map ReplayBuffer.buffer_size
      = (mkReplayBuffer 5 2 false true).map (fun _ => max (5 / 2) 1) ∧
    (mkDictReplayBuffer 5 2 false true).map DictReplayBuffer.buffer_size
      = (mkDictReplayBuffer 5 2 false true).map (fun _ => max (5 / 2) 1) ∧
    1 ≤ max (5 / 2) 1 ∧
    (mkReplayBuffer 5 2 false true).map (fun b => b.buffer_size * b.n_envs) = .ok 4 ∧
    4 < 5 :=
  buffer_size_adjustment 5 2 false true (by decide)

/-- C6: `_get_network_from_name` raises `ValueError` exactly on strings that
are not one of the four registered aliases, returns the matching class on
each registered alias, and is the resolution `DQNPolicy.__init__` applies to
a string-valued `network` argument. -/
theorem network_alias_resolution (s : String) :
    ((∃ msg, getNetworkFromName s = .error msg) ↔
      s ∉ ["CnnMlpNetwork1", "CnnMlpNetwork2", "CnnMlpNetwork3", "CnnMlpNetwork4"]) ∧
    getNetworkFromName "CnnMlpNetwork1" = .ok NetworkClass.CnnMlpNetwork1 ∧
    getNetworkFromName "CnnMlpNetwork2" = .ok NetworkClass.CnnMlpNetwork2 ∧
    getNetworkFromName "CnnMlpNetwork3" = .ok NetworkClass.CnnMlpNetwork3 ∧
    getNetworkFromName "CnnMlpNetwork4" = .ok NetworkClass.CnnMlpNetwork4 ∧
    DQNPolicy.resolveNetwork (.inl s) = getNetworkFromName s := by
  refine ⟨?_, rfl, rfl, rfl, rfl, rfl⟩
  by_cases h1 : s = "CnnMlpNetwork1"
  · subst h1; simp [getNetworkFromName, network_aliases]
  by_cases h2 : s = "CnnMlpNetwork2"
  · subst h2; simp [getNetworkFromName, network_aliases]
  by_cases h3 : s = "CnnMlpNetwork3"
  · subst h3; simp [getNetworkFromName, network_aliases]
  by_cases h4 : s = "CnnMlpNetwork4"
  · subst h4; simp [getNetworkFromName, network_aliases]
  · simp [getNetworkFromName, network_aliases, h1, h2, h3, h4,
      Ne.symm h1, Ne.symm h2, Ne.symm h3, Ne.symm h4]

/-- C7: construction writes the seven-field header row exactly once and
flushes it; every `_on_rollout_end` call appends exactly one seven-value data
row (model timesteps plus the six logger values, in `fieldnames` order) and
flushes the handle. -/
theorem metrics_csv_rows (cb : MetricsCallback) (ts : String) (logger : String → String) :
    MetricsCallback.construct.file_handler.flushed = [metricsFieldnames] ∧
    MetricsCallback.construct.file_handler.pending = [] ∧
    metricsFieldnames.length = 7 ∧
    (cb.onRolloutEnd ts logger).file_handler.flushed
      = cb.file_handler.flushed ++ cb.file_handler.pending ++
        [[ts, logger "rollout/ep_rew_mean", logger "rollout/ep_PE_mean",
          logger "rollout/exploration_rate", logger "train/loss",
          logger "train/n_updates", logger "train/learning_rate"]] ∧
    (cb.onRolloutEnd ts logger).file_handler.pending = [] := by
  refine ⟨rfl, rfl, rfl, ?_, rfl⟩
  simp [MetricsCallback.onRolloutEnd, CsvFile.writeRowBuf, CsvFile.flushFile,
    metricsFieldnames]

/-- C1: in memory-optimised mode no sampled batch index equals the current
write pointer: when full the index is `(randint(1, buffer_size) + pos) %
buffer_size`, never `pos`; when not full it is drawn from `[0, pos)`. -/
theorem memopt_sample_never_hits_write_pointer (b : ReplayBuffer) (r : Nat)
    (hopt : b.optimize_memory_usage = true)
    (hpos : b.pos < b.buffer_size)
    (hr : b.sampleDrawSupport r) :
    b.sampleIndex r ≠ b.pos := by
  unfold ReplayBuffer.sampleIndex ReplayBuffer.sampleDrawSupport at *
  cases hfull : b.full with
  | false =>
    simp only [hfull, Bool.false_eq_true, if_false] at hr ⊢
    omega
  | true =>
    simp only [hfull, if_true] at hr ⊢
    obtain ⟨h1, h2⟩ := hr
    intro hEq
    rcases Nat.lt_or_ge (r + b.pos) b.buffer_size with hlt | hge
    · rw [Nat.mod_eq_of_lt hlt] at hEq
      omega
    · have hsub : r + b.pos - b.buffer_size < b.buffer_size := by omega
      rw [Nat.mod_eq_sub_mod hge, Nat.mod_eq_of_lt hsub] at hEq
      omega

/-- A memory-optimised buffer state used to witness C1: capacity 4, write
pointer 2, already full. -/
def memoptBuffer : ReplayBuffer :=
  { buffer_size := 4
    n_envs := 1
    optimize_memory_usage := true
    handle_timeout_termination := false
    pos := 2
    full := true
    observations := fun _ _ => 0
    next_observations := fun _ _ => 0
    actions := fun _ _ => 0
    rewards := fun _ _ => 0
    dones := fun _ _ => 0
    timeouts := fun _ _ => 0
    truth_masks := fun _ _ _ => 0 }

/-- Witness for C1: a full memory-optimised buffer of capacity 4 with write
pointer 2 and raw draw 1. -/
theorem memopt_sample_never_hits_write_pointer_witness :
    memoptBuffer.sampleIndex 1 ≠ memoptBuffer.pos :=
  memopt_sample_never_hits_write_pointer memoptBuffer 1 rfl (by decide)
    (by unfold ReplayBuffer.sampleDrawSupport memoptBuffer; simp)

/-- One `add` call keeps the capacity. -/
theorem applyAdd_buffer_size (b : ReplayBuffer) (a : AddArgs) :
    (applyAdd b a).buffer_size = b.buffer_size := rfl

/-- One `add` call keeps both option flags. -/
theorem applyAdd_flags (b : ReplayBuffer) (a : AddArgs) :
    (applyAdd b a).optimize_memory_usage = b.optimize_memory_usage ∧
    (applyAdd b a).handle_timeout_termination = b.handle_timeout_termination :=
  ⟨rfl, rfl⟩

/-- One `add` call keeps the write pointer below capacity. -/
theorem applyAdd_pos_lt (b : ReplayBuffer) (a : AddArgs)
    (h : b.pos < b.buffer_size) : (applyAdd b a).pos < b.buffer_size := by
  simp only [applyAdd, ReplayBuffer.add]
  split <;> omega

/-- A sequence of `add` calls keeps the capacity. -/
theorem addMany_buffer_size (ops : List AddArgs) :
    ∀ b : ReplayBuffer, (addMany b ops).buffer_size = b.buffer_size := by
  induction ops with
  | nil => intro b; rfl
  | cons a rest ih =>
    intro b
    simpa [addMany, List.foldl] using ih (applyAdd b a)

/-- A sequence of `add` calls keeps both option flags. -/
theorem addMany_flags (ops : List AddArgs) :
    ∀ b : ReplayBuffer,
      (addMany b ops).optimize_memory_usage = b.optimize_memory_usage ∧
      (addMany b ops).handle_timeout_termination = b.handle_timeout_termination := by
  induction ops with
  | nil => intro b; exact ⟨rfl, rfl⟩
  | cons a rest ih =>
    intro b
    simpa [addMany, List.foldl] using ih (applyAdd b a)

/-- A sequence of `add` calls keeps the write pointer below capacity. -/
theorem addMany_pos_lt (ops : List AddArgs) :
    ∀ b : ReplayBuffer, b.pos < b.buffer_size →
      (addMany b ops).pos < (addMany b ops).buffer_size := by
  induction ops with
  | nil => intro b h; exact h
  | cons a rest ih =>
    intro b h
    have := ih (applyAdd b a) (applyAdd_pos_lt b a h)
    simpa [addMany, List.foldl] using this

/-- One `DictReplayBuffer.add` call keeps the write pointer below capacity
and the capacity itself. -/
theorem applyDictAdd_pos_lt (b : DictReplayBuffer) (a : DictAddArgs)
    (h : b.pos < b.buffer_size) :
    (applyDictAdd b a).pos < b.buffer_size ∧
      (applyDictAdd b a).buffer_size = b.buffer_size := by
  constructor
  · simp only [applyDictAdd, DictReplayBuffer.add]
    split <;> omega
  · rfl

/-- A sequence of `DictReplayBuffer.add` calls keeps the write pointer below
capacity. -/
theorem dictAddMany_pos_lt (ops : List DictAddArgs) :
    ∀ b : DictReplayBuffer, b.pos < b.buffer_size →
      (dictAddMany b ops).pos < (dictAddMany b ops).buffer_size := by
  induction ops with
  | nil => intro b h; exact h
  | cons a rest ih =>
    intro b h
    have := ih (applyDictAdd b a) (applyDictAdd_pos_lt b a h).1
    simpa [dictAddMany, List.foldl] using this

/-- C2: the write pointer is circular.  A single `add` (on either buffer
class) keeps `pos < buffer_size`; it increments `pos` by one except exactly
when `pos + 1` reaches `buffer_size`, in which case `pos` resets to 0 and
`full` becomes `True`; `full` never returns to `False`; and after any
sequence of `add` calls on a freshly constructed buffer the pointer is still
below capacity. -/
theorem add_advances_circular_pointer :
    (∀ (b : ReplayBuffer) (a : AddArgs), b.pos < b.buffer_size →
      ((applyAdd b a).pos < (applyAdd b a).buffer_size ∧
       (b.pos + 1 = b.buffer_size → (applyAdd b a).pos = 0 ∧ (applyAdd b a).full = true) ∧
       (b.pos + 1 ≠ b.buffer_size → (applyAdd b a).pos = b.pos + 1 ∧
         (applyAdd b a).full = b.full) ∧
       (b.full = true → (applyAdd b a).full = true))) ∧
    (∀ (b : DictReplayBuffer) (a : DictAddArgs), b.pos < b.buffer_size →
      ((applyDictAdd b a).pos < (applyDictAdd b a).buffer_size ∧
       (b.pos + 1 = b.buffer_size → (applyDictAdd b a).pos = 0 ∧
         (applyDictAdd b a).full = true) ∧
       (b.pos + 1 ≠ b.buffer_size → (applyDictAdd b a).pos = b.pos + 1 ∧
         (applyDictAdd b a).full = b.full) ∧
       (b.full = true → (applyDictAdd b a).full = true))) ∧
    (∀ (bs ne : Nat) (omu htt : Bool) (b : ReplayBuffer) (ops : List AddArgs),
      mkReplayBuffer bs ne omu htt = .ok b →
      (addMany b ops).pos < (addMany b ops).buffer_size) ∧
    (∀ (bs ne : Nat) (omu htt : Bool) (b : DictReplayBuffer) (ops : List DictAddArgs),
      mkDictReplayBuffer bs ne omu htt = .ok b →
      (dictAddMany b ops).pos < (dictAddMany b ops).buffer_size) := by
  refine ⟨?_, ?_, ?_, ?_⟩
  · intro b a h
    refine ⟨applyAdd_pos_lt b a h, ?_, ?_, ?_⟩ <;>
      simp only [applyAdd, ReplayBuffer.add] <;> intro hc <;> simp [hc]
  · intro b a h
    refine ⟨(applyDictAdd_pos_lt b a h).1, ?_, ?_, ?_⟩ <;>
      simp only [applyDictAdd, DictReplayBuffer.add] <;> intro hc <;> simp [hc]
  · intro bs ne omu htt b ops h
    obtain ⟨hpos, hbsz, -⟩ := mkReplayBuffer_ok_fields h
    exact addMany_pos_lt ops b (by rw [hpos, hbsz]; exact Nat.lt_of_lt_of_le Nat.zero_lt_one (le_max_right _ _))
  · intro bs ne omu htt b ops h
    obtain ⟨hpos, hbsz, -⟩ := mkDictReplayBuffer_ok_fields h
    exact dictAddMany_pos_lt ops b (by rw [hpos, hbsz]; exact Nat.lt_of_lt_of_le Nat.zero_lt_one (le_max_right _ _))

/-- Add-call arguments used by the buffer witnesses. -/
def sampleAddArgs : AddArgs :=
  { obs := fun _ => 5
    next_obs := fun _ => 6
    action := fun _ => 1
    reward := fun _ => 2
    done := fun _ => 0
    infosTruncated := fun _ => false
    truth_mask := fun _ _ => 1 }

/-- The buffer produced by `mkReplayBuffer 4 1 false true` (capacity 4, one
environment, plain storage, timeout handling on). -/
def freshBuffer : ReplayBuffer :=
  { buffer_size := max (4 / 1) 1
    n_envs := 1
    optimize_memory_usage := false
    handle_timeout_termination := true
    pos := 0
    full := false
    observations := fun _ _ => 0
    next_observations := fun _ _ => 0
    actions := fun _ _ => 0
    rewards := fun _ _ => 0
    dones := fun _ _ => 0
    timeouts := fun _ _ => 0
    truth_masks := fun _ _ _ => 0 }

/-- Dict-buffer add-call arguments used by the buffer witnesses. -/
def sampleDictAddArgs : DictAddArgs :=
  { obs := fun _ _ => 5
    next_obs := fun _ _ => 6
    action := fun _ => 1
    reward := fun _ => 2
    done := fun _ => 0
    infosTruncated := fun _ => false
    truth_mask := fun _ _ => 1 }

/-- The buffer produced by `mkDictReplayBuffer 4 1 false true`. -/
def freshDictBuffer : DictReplayBuffer :=
  { buffer_size := max (4 / 1) 1
    n_envs := 1
    optimize_memory_usage := false
    handle_timeout_termination := true
    pos := 0
    full := false
    observations := fun _ _ _ => 0
    next_observations := fun _ _ _ => 0
    actions := fun _ _ => 0
    rewards := fun _ _ => 0
    dones := fun _ _ => 0
    timeouts := fun _ _ => 0
    truth_masks := fun _ _ _ => 0 }

/-- Witness for C2 on freshly constructed capacity-4 buffers. -/
theorem add_advances_circular_pointer_witness :
    (applyAdd freshBuffer sampleAddArgs).pos <
      (applyAdd freshBuffer sampleAddArgs).buffer_size ∧
    (applyDictAdd freshDictBuffer sampleDictAddArgs).pos <
      (applyDictAdd freshDictBuffer sampleDictAddArgs).buffer_size ∧
    (addMany freshBuffer [sampleAddArgs]).pos <
      (addMany freshBuffer [sampleAddArgs]).buffer_size ∧
    (dictAddMany freshDictBuffer [sampleDictAddArgs]).pos <
      (dictAddMany freshDictBuffer [sampleDictAddArgs]).buffer_size :=
  ⟨(add_advances_circular_pointer.1 freshBuffer sampleAddArgs (by decide)).1,
   (add_advances_circular_pointer.2.1 freshDictBuffer sampleDictAddArgs (by decide)).1,
   add_advances_circular_pointer.2.2.1 4 1 false true freshBuffer [sampleAddArgs] rfl,
   add_advances_circular_pointer.2.2.2 4 1 false true freshDictBuffer [sampleDictAddArgs] rfl⟩

/-- `getD` of a mapped list at an in-bounds index. -/
theorem getD_map_of_lt {α : Type} (f : α → Int) (l : List α) (d : α) :
    ∀ k : Nat, k < l.length → (l.map f).getD k 0 = f (l.getD k d) := by
  induction l with
  | nil => intro k hk; simp at hk
  | cons x xs ih =>
    intro k hk
    cases k with
    | zero => rfl
    | succ n =>
      simp only [List.map_cons, List.getD_cons_succ]
      exact ih n (by simpa using hk)

/-- With `handle_timeout_termination = False` an `add` call leaves the
timeout array untouched. -/
theorem applyAdd_timeouts_untouched (b : ReplayBuffer) (a : AddArgs)
    (h : b.handle_timeout_termination = false) :
    (applyAdd b a).timeouts = b.timeouts := by
  simp [applyAdd, ReplayBuffer.add, h]

/-- With `handle_timeout_termination = False` a sequence of `add` calls
leaves the timeout array untouched. -/
theorem addMany_timeouts_untouched (ops : List AddArgs) :
    ∀ b : ReplayBuffer, b.handle_timeout_termination = false →
      (addMany b ops).timeouts = b.timeouts := by
  induction ops with
  | nil => intro b _; rfl
  | cons a rest ih =>
    intro b h
    have step := applyAdd_timeouts_untouched b a h
    have tail := ih (applyAdd b a) h
    simp only [addMany, List.foldl] at tail ⊢
    rw [tail, step]

/-- Dict version: `add` leaves timeouts untouched without timeout handling. -/
theorem applyDictAdd_timeouts_untouched (b : DictReplayBuffer) (a : DictAddArgs)
    (h : b.handle_timeout_termination = false) :
    (applyDictAdd b a).timeouts = b.timeouts := by
  simp [applyDictAdd, DictReplayBuffer.add, h]

/-- Dict version: `add` sequences leave timeouts untouched without timeout
handling. -/
theorem dictAddMany_timeouts_untouched (ops : List DictAddArgs) :
    ∀ b : DictReplayBuffer, b.handle_timeout_termination = false →
      (dictAddMany b ops).timeouts = b.timeouts := by
  induction ops with
  | nil => intro b _; rfl
  | cons a rest ih =>
    intro b h
    have step := applyDictAdd_timeouts_untouched b a h
    have tail := ih (applyDictAdd b a) h
    simp only [dictAddMany, List.foldl] at tail ⊢
    rw [tail, step]

/-- The terminal-signal entry of a `ReplayBuffer._get_samples` batch. -/
theorem getSamples_dones_getD (b : ReplayBuffer) (inds : List (Nat × Nat)) (k : Nat)
    (hk : k < inds.length) :
    (b.getSamples inds).dones.getD k 0
      = b.dones (inds.getD k (0, 0)).1 (inds.getD k (0, 0)).2
        * (1 - b.timeouts (inds.getD k (0, 0)).1 (inds.getD k (0, 0)).2) :=
  getD_map_of_lt _ inds (0, 0) k hk

/-- The terminal-signal entry of a `DictReplayBuffer._get_samples` batch. -/
theorem dict_getSamples_dones_getD (b : DictReplayBuffer) (inds : List (Nat × Nat))
    (k : Nat) (hk : k < inds.length) :
    (b.getSamples inds).dones.getD k 0
      = b.dones (inds.getD k (0, 0)).1 (inds.getD k (0, 0)).2
        * (1 - b.timeouts (inds.getD k (0, 0)).1 (inds.getD k (0, 0)).2) :=
  getD_map_of_lt _ inds (0, 0) k hk

/-- C3: every terminal signal returned by `_get_samples` (on either buffer
class) equals `dones * (1 - timeouts)`; a stored `done = 1` with timeout flag
1 therefore yields 0; and with `handle_timeout_termination = False` the
timeout array stays all-zero through any sequence of `add` calls, so the
returned signal equals the stored `done`. -/
theorem terminal_signal_excludes_timeouts :
    (∀ (b : ReplayBuffer) (inds : List (Nat × Nat)) (k : Nat), k < inds.length →
      (b.getSamples inds).dones.getD k 0
        = b.dones (inds.getD k (0, 0)).1 (inds.getD k (0, 0)).2
          * (1 - b.timeouts (inds.getD k (0, 0)).1 (inds.getD k (0, 0)).2)) ∧
    (∀ (b : DictReplayBuffer) (inds : List (Nat × Nat)) (k : Nat), k < inds.length →
      (b.getSamples inds).dones.getD k 0
        = b.dones (inds.getD k (0, 0)).1 (inds.getD k (0, 0)).2
          * (1 - b.timeouts (inds.getD k (0, 0)).1 (inds.getD k (0, 0)).2)) ∧
    (∀ (b : ReplayBuffer) (i e : Nat), b.dones i e = 1 → b.timeouts i e = 1 →
      b.dones i e * (1 - b.timeouts i e) = 0) ∧
    (∀ (bs ne : Nat) (omu : Bool) (b : ReplayBuffer) (ops : List AddArgs) (i e : Nat),
      mkReplayBuffer bs ne omu false = .ok b →
      (addMany b ops).timeouts i e = 0) ∧
    (∀ (bs ne : Nat) (omu : Bool) (b : ReplayBuffer) (ops : List AddArgs)
        (inds : List (Nat × Nat)) (k : Nat),
      mkReplayBuffer bs ne omu false = .ok b → k < inds.length →
      ((addMany b ops).getSamples inds).dones.getD k 0
        = (addMany b ops).dones (inds.getD k (0, 0)).1 (inds.getD k (0, 0)).2) ∧
    (∀ (bs ne : Nat) (omu : Bool) (b : DictReplayBuffer) (ops : List DictAddArgs)
        (inds : List (Nat × Nat)) (k : Nat),
      mkDictReplayBuffer bs ne omu false = .ok b → k < inds.length →
      ((dictAddMany b ops).getSamples inds).dones.getD k 0
        = (dictAddMany b ops).dones (inds.getD k (0, 0)).1 (inds.getD k (0, 0)).2) := by
  have replayZero : ∀ (bs ne : Nat) (omu : Bool) (b : ReplayBuffer)
      (ops : List AddArgs) (i e : Nat), mkReplayBuffer bs ne omu false = .ok b →
      (addMany b ops).timeouts i e = 0 := by
    intro bs ne omu b ops i e h
    obtain ⟨-, -, -, -, hhtt, -, htz⟩ := mkReplayBuffer_ok_fields h
    rw [addMany_timeouts_untouched ops b hhtt, htz]
  have dictZero : ∀ (bs ne : Nat) (omu : Bool) (b : DictReplayBuffer)
      (ops : List DictAddArgs) (i e : Nat), mkDictReplayBuffer bs ne omu false = .ok b →
      (dictAddMany b ops).timeouts i e = 0 := by
    intro bs ne omu b ops i e h
    obtain ⟨-, -, -, -, hhtt, -, htz⟩ := mkDictReplayBuffer_ok_fields h
    rw [dictAddMany_timeouts_untouched ops b hhtt, htz]
  refine ⟨getSamples_dones_getD, dict_getSamples_dones_getD, ?_, replayZero, ?_, ?_⟩
  · intro b i e h1 h2
    rw [h1, h2]
    norm_num
  · intro bs ne omu b ops inds k h hk
    rw [getSamples_dones_getD _ inds k hk, replayZero bs ne omu b ops _ _ h]
    ring
  · intro bs ne omu b ops inds k h hk
    rw [dict_getSamples_dones_getD _ inds k hk, dictZero bs ne omu b ops _ _ h]
    ring

/-- The buffer produced by `mkReplayBuffer 4 1 false false` (no timeout
handling). -/
def freshPlainBuffer : ReplayBuffer :=
  { buffer_size := max (4 / 1) 1
    n_envs := 1
    optimize_memory_usage := false
    handle_timeout_termination := false
    pos := 0
    full := false
    observations := fun _ _ => 0
    next_observations := fun _ _ => 0
    actions := fun _ _ => 0
    rewards := fun _ _ => 0
    dones := fun _ _ => 0
    timeouts := fun _ _ => 0
    truth_masks := fun _ _ _ => 0 }

/-- The buffer produced by `mkDictReplayBuffer 4 1 false false`. -/
def freshPlainDictBuffer : DictReplayBuffer :=
  { buffer_size := max (4 / 1) 1
    n_envs := 1
    optimize_memory_usage := false
    handle_timeout_termination := false
    pos := 0
    full := false
    observations := fun _ _ _ => 0
    next_observations := fun _ _ _ => 0
    actions := fun _ _ => 0
    rewards := fun _ _ => 0
    dones := fun _ _ => 0
    timeouts := fun _ _ => 0
    truth_masks := fun _ _ _ => 0 }

/-- A buffer holding a transition stored with `done = 1` and timeout flag 1. -/
def doneTimeoutBuffer : ReplayBuffer :=
  { freshBuffer with dones := fun _ _ => 1, timeouts := fun _ _ => 1 }

/-- Witness for C3 on concrete buffers and a one-element batch. -/
theorem terminal_signal_excludes_timeouts_witness :
    (freshBuffer.getSamples [(0, 0)]).dones.getD 0 0
      = freshBuffer.dones 0 0 * (1 - freshBuffer.timeouts 0 0) ∧
    (freshDictBuffer.getSamples [(0, 0)]).dones.getD 0 0
      = freshDictBuffer.dones 0 0 * (1 - freshDictBuffer.timeouts 0 0) ∧
    doneTimeoutBuffer.dones 0 0 * (1 - doneTimeoutBuffer.timeouts 0 0) = 0 ∧
    (addMany freshPlainBuffer [sampleAddArgs]).timeouts 0 0 = 0 ∧
    ((addMany freshPlainBuffer [sampleAddArgs]).getSamples [(0, 0)]).dones.getD 0 0
      = (addMany freshPlainBuffer [sampleAddArgs]).dones 0 0 ∧
    ((dictAddMany freshPlainDictBuffer [sampleDictAddArgs]).getSamples [(0, 0)]).dones.getD 0 0
      = (dictAddMany freshPlainDictBuffer [sampleDictAddArgs]).dones 0 0 :=
  ⟨terminal_signal_excludes_timeouts.1 freshBuffer [(0, 0)] 0 (by decide),
   terminal_signal_excludes_timeouts.2.1 freshDictBuffer [(0, 0)] 0 (by decide),
   terminal_signal_excludes_timeouts.2.2.1 doneTimeoutBuffer 0 0 (by decide) (by decide),
   terminal_signal_excludes_timeouts.2.2.2.1 4 1 false freshPlainBuffer
     [sampleAddArgs] 0 0 rfl,
   terminal_signal_excludes_timeouts.2.2.2.2.1 4 1 false freshPlainBuffer
     [sampleAddArgs] [(0, 0)] 0 rfl (by decide),
   terminal_signal_excludes_timeouts.2.2.2.2.2 4 1 false freshPlainDictBuffer
     [sampleDictAddArgs] [(0, 0)] 0 rfl (by decide)⟩

/-- The observation slots written by one `add` call at state `b`: slot `pos`
always, and slot `(pos + 1) % buffer_size` in memory-optimised mode. -/
def ReplayBuffer.writesObsSlot (b : ReplayBuffer) (s : Nat) : Prop :=
  b.pos = s ∨ (b.optimize_memory_usage = true ∧ (b.pos + 1) % b.buffer_size = s)

/-- No `add` call of the sequence writes observation slot `s`, tracking the
state each call runs in. -/
def avoidsObsSlot (s : Nat) : ReplayBuffer → List AddArgs → Prop
  | _, [] => True
  | b, a :: rest => ¬ b.writesObsSlot s ∧ avoidsObsSlot s (applyAdd b a) rest

/-- An `add` call leaves every observation slot it does not write unchanged. -/
theorem applyAdd_observations_untouched (b : ReplayBuffer) (a : AddArgs) (s e : Nat)
    (h : ¬ b.writesObsSlot s) :
    (applyAdd b a).observations s e = b.observations s e := by
  simp only [ReplayBuffer.writesObsSlot, not_or, not_and] at h
  obtain ⟨h1, h2⟩ := h
  have hs1 : s ≠ b.pos := fun hh => h1 hh.symm
  cases hopt : b.optimize_memory_usage with
  | false => simp [applyAdd, ReplayBuffer.add, writeRow, hopt, hs1]
  | true =>
    have hs2 : s ≠ (b.pos + 1) % b.buffer_size := fun hh => (h2 hopt) hh.symm
    simp [applyAdd, ReplayBuffer.add, writeRow, hopt, hs1, hs2]

/-- A sequence of `add` calls avoiding observation slot `s` leaves it
unchanged. -/
theorem addMany_observations_untouched (s : Nat) (ops : List AddArgs) :
    ∀ (b : ReplayBuffer) (e : Nat), avoidsObsSlot s b ops →
      (addMany b ops).observations s e = b.observations s e := by
  induction ops with
  | nil => intro b e _; rfl
  | cons a rest ih =>
    intro b e h
    obtain ⟨h1, h2⟩ := h
    have tail := ih (applyAdd b a) e h2
    simp only [addMany, List.foldl] at tail ⊢
    rw [tail, applyAdd_observations_untouched b a s e h1]

/-- In memory-optimised mode `add` stores the next observation at slot
`(pos + 1) % buffer_size` of the single observation array. -/
theorem applyAdd_aliased_next_obs (b : ReplayBuffer) (a : AddArgs) (e : Nat)
    (hopt : b.optimize_memory_usage = true) :
    (applyAdd b a).observations ((b.pos + 1) % b.buffer_size) e = a.next_obs e := by
  simp [applyAdd, ReplayBuffer.add, writeRow, hopt]

/-- C5: in memory-optimised mode `add` writes `next_obs` into
`observations[(pos + 1) % buffer_size]`, `_get_samples` reads the next
observation of batch index `i` from `observations[(i + 1) % buffer_size]`,
and for a slot `p` written by `add` whose successor slot no later `add` has
overwritten, sampling index `p` returns exactly the `next_obs` passed to that
`add`. -/
theorem memopt_next_obs_aliasing :
    (∀ (b : ReplayBuffer) (a : AddArgs) (e : Nat), b.optimize_memory_usage = true →
      (applyAdd b a).observations ((b.pos + 1) % b.buffer_size) e = a.next_obs e) ∧
    (∀ (b : ReplayBuffer) (inds : List (Nat × Nat)) (k : Nat),
      b.optimize_memory_usage = true → k < inds.length →
      (b.getSamples inds).next_observations.getD k 0
        = b.observations (((inds.getD k (0, 0)).1 + 1) % b.buffer_size)
            (inds.getD k (0, 0)).2) ∧
    (∀ (b : ReplayBuffer) (a : AddArgs) (ops : List AddArgs) (e : Nat),
      b.optimize_memory_usage = true →
      avoidsObsSlot ((b.pos + 1) % b.buffer_size) (applyAdd b a) ops →
      ((addMany (applyAdd b a) ops).getSamples [(b.pos, e)]).next_observations.getD 0 0
        = a.next_obs e) := by
  refine ⟨applyAdd_aliased_next_obs, ?_, ?_⟩
  · intro b inds k hopt hk
    have := getD_map_of_lt
      (fun p : Nat × Nat =>
        if b.optimize_memory_usage then b.observations ((p.1 + 1) % b.buffer_size) p.2
        else b.next_observations p.1 p.2) inds (0, 0) k hk
    rw [show (b.getSamples inds).next_observations
        = inds.map (fun p : Nat × Nat =>
            if b.optimize_memory_usage then b.observations ((p.1 + 1) % b.buffer_size) p.2
            else b.next_observations p.1 p.2) from rfl, this, hopt]
    simp
  · intro b a ops e hopt havoid
    have hoptF : (addMany (applyAdd b a) ops).optimize_memory_usage = true := by
      rw [(addMany_flags ops (applyAdd b a)).1]
      exact hopt
    have hbszF : (addMany (applyAdd b a) ops).buffer_size = b.buffer_size := by
      rw [addMany_buffer_size]
      rfl
    show (if (addMany (applyAdd b a) ops).optimize_memory_usage then
            (addMany (applyAdd b a) ops).observations
              ((b.pos + 1) % (addMany (applyAdd b a) ops).buffer_size) e
          else (addMany (applyAdd b a) ops).next_observations b.pos e) = a.next_obs e
    rw [hoptF]
    rw [if_pos rfl, hbszF,
      addMany_observations_untouched ((b.pos + 1) % b.buffer_size) ops
        (applyAdd b a) e havoid,
      applyAdd_aliased_next_obs b a e hopt]

/-- Witness for C5 on the full memory-optimised capacity-4 buffer with write
pointer 2 and an empty tail of later `add` calls. -/
theorem memopt_next_obs_aliasing_witness :
    (applyAdd memoptBuffer sampleAddArgs).observations
        ((memoptBuffer.pos + 1) % memoptBuffer.buffer_size) 0
      = sampleAddArgs.next_obs 0 ∧
    (memoptBuffer.getSamples [(2, 0)]).next_observations.getD 0 0
      = memoptBuffer.observations ((2 + 1) % memoptBuffer.buffer_size) 0 ∧
    ((addMany (applyAdd memoptBuffer sampleAddArgs) []).getSamples
        [(memoptBuffer.pos, 0)]).next_observations.getD 0 0
      = sampleAddArgs.next_obs 0 :=
  ⟨memopt_next_obs_aliasing.1 memoptBuffer sampleAddArgs 0 rfl,
   memopt_next_obs_aliasing.2.1 memoptBuffer [(2, 0)] 0 rfl (by decide),
   memopt_next_obs_aliasing.2.2 memoptBuffer sampleAddArgs [] 0 rfl trivial⟩

/-- The accumulator is below its running maximum. -/
theorem le_foldl_max (xs : List Int) : ∀ x : Int, x ≤ xs.foldl max x := by
  induction xs with
  | nil => intro x; exact le_refl x
  | cons y ys ih =>
    intro x
    exact le_trans (le_max_left x y) (ih (max x y))

/-- Every element is below the running maximum. -/
theorem getD_le_foldl_max (xs : List Int) :
    ∀ (x : Int) (j : Nat), j < xs.length → xs.getD j 0 ≤ xs.foldl max x := by
  induction xs with
  | nil => intro x j hj; simp at hj
  | cons y ys ih =>
    intro x j hj
    cases j with
    | zero =>
      simp only [List.getD_cons_zero, List.foldl_cons]
      exact le_trans (le_max_right x y) (le_foldl_max ys (max x y))
    | succ n =>
      simp only [List.getD_cons_succ, List.foldl_cons]
      exact ih (max x y) n (by simpa using hj)

/-- Every entry of a nonempty list is below the maximum of its head and
tail. -/
theorem cons_getD_le_fold (x : Int) (xs : List Int) :
    ∀ j : Nat, j < xs.length + 1 → (x :: xs).getD j 0 ≤ xs.foldl max x := by
  intro j hj
  cases j with
  | zero => simpa using le_foldl_max xs x
  | succ n => simpa using getD_le_foldl_max xs x n (by omega)

/-- Specification of `argmaxFrom`: it returns either the incoming best index
with unchanged running maximum, or an in-range index of the remaining list
holding a strictly larger new maximum. -/
theorem argmaxFrom_spec (xs : List Int) :
    ∀ (bv : Int) (i best : Nat),
      (argmaxFrom bv i best xs = best ∧ xs.foldl max bv = bv) ∨
      (i ≤ argmaxFrom bv i best xs ∧ argmaxFrom bv i best xs < i + xs.length ∧
        xs.getD (argmaxFrom bv i best xs - i) 0 = xs.foldl max bv ∧
        bv < xs.foldl max bv) := by
  induction xs with
  | nil => intro bv i best; left; exact ⟨rfl, rfl⟩
  | cons x xs ih =>
    intro bv i best
    simp only [argmaxFrom, List.foldl_cons, List.length_cons]
    by_cases hlt : bv < x
    · rw [if_pos hlt, max_eq_right (le_of_lt hlt)]
      rcases ih x (i + 1) i with ⟨heq, hfold⟩ | ⟨h1, h2, h3, h4⟩
      · right
        rw [heq, hfold]
        exact ⟨le_refl i, by omega, by simp [Nat.sub_self], hlt⟩
      · right
        refine ⟨by omega, by omega, ?_, lt_trans hlt h4⟩
        have hk : argmaxFrom x (i + 1) i xs - i
            = (argmaxFrom x (i + 1) i xs - (i + 1)) + 1 := by omega
        rw [hk, List.getD_cons_succ]
        exact h3
    · rw [if_neg hlt, max_eq_left (le_of_not_lt hlt)]
      rcases ih bv (i + 1) best with ⟨heq, hfold⟩ | ⟨h1, h2, h3, h4⟩
      · left
        exact ⟨heq, hfold⟩
      · right
        refine ⟨by omega, by omega, ?_, h4⟩
        have hk : argmaxFrom bv (i + 1) best xs - i
            = (argmaxFrom bv (i + 1) best xs - (i + 1)) + 1 := by omega
        rw [hk, List.getD_cons_succ]
        exact h3

/-- The first-max index of a nonempty list is in bounds and holds a value no
smaller than any entry. -/
theorem argmaxIdx_spec (l : List Int) (hne : l ≠ []) :
    argmaxIdx l < l.length ∧
      ∀ j, j < l.length → l.getD j 0 ≤ l.getD (argmaxIdx l) 0 := by
  cases l with
  | nil => exact absurd rfl hne
  | cons x xs =>
    simp only [argmaxIdx, List.length_cons]
    rcases argmaxFrom_spec xs x 1 0 with ⟨heq, hfold⟩ | ⟨h1, h2, h3, h4⟩
    · rw [heq]
      refine ⟨by omega, ?_⟩
      intro j hj
      rw [List.getD_cons_zero]
      calc (x :: xs).getD j 0 ≤ xs.foldl max x := cons_getD_le_fold x xs j hj
        _ = x := hfold
    · refine ⟨by omega, ?_⟩
      intro j hj
      obtain ⟨n, hn⟩ : ∃ n, argmaxFrom x 1 0 xs = n + 1 :=
        ⟨argmaxFrom x 1 0 xs - 1, by omega⟩
      rw [hn] at h3 ⊢
      simp only [Nat.add_sub_cancel] at h3
      calc (x :: xs).getD j 0 ≤ xs.foldl max x := cons_getD_le_fold x xs j hj
        _ = xs.getD n 0 := h3.symm
        _ = (x :: xs).getD (n + 1) 0 := by rw [List.getD_cons_succ]

/-- `getD` of a `zipWith` at an in-bounds index. -/
theorem getD_zipWith_of_lt (f : Int → Int → Int) (a : List Int) :
    ∀ (b : List Int) (k : Nat), k < a.length → k < b.length →
      (List.zipWith f a b).getD k 0 = f (a.getD k 0) (b.getD k 0) := by
  induction a with
  | nil => intro b k hka _; simp at hka
  | cons x xs ih =>
    intro b k hka hkb
    cases b with
    | nil => simp at hkb
    | cons y ys =>
      cases k with
      | zero => rfl
      | succ n =>
        simp only [List.zipWith_cons_cons, List.getD_cons_succ]
        exact ih ys n (by simpa using hka) (by simpa using hkb)

/-- C8: `QNetwork._predict` returns an argmax of the q-values after every
entry with mask not equal to 1 is replaced by `mask_replace_coef`; whenever
some action with mask 1 has q-value strictly above the coefficient the
selected action has mask 1, but when all legal q-values are at or below the
default coefficient -15 an illegal action can be returned (mask `[0, 1]`,
q-values `[-20, -20]` select action 0, whose mask is 0). -/
theorem masked_argmax_prefers_legal (coef : Int) (mask q : List Int) :
    (maskedQValues coef mask q ≠ [] →
      QNetwork.predictAction coef mask q < (maskedQValues coef mask q).length) ∧
    (∀ j, j < (maskedQValues coef mask q).length →
      (maskedQValues coef mask q).getD j 0
        ≤ (maskedQValues coef mask q).getD (QNetwork.predictAction coef mask q) 0) ∧
    (∀ i, i < mask.length → i < q.length → mask.getD i 0 = 1 → coef < q.getD i 0 →
      mask.getD (QNetwork.predictAction coef mask q) 0 = 1) ∧
    (QNetwork.predictAction defaultMaskReplaceCoef [0, 1] [-20, -20] = 0 ∧
      ([0, 1] : List Int).getD 0 0 ≠ 1) := by
  refine ⟨?_, ?_, ?_, by decide, by decide⟩
  · intro hne
    exact (argmaxIdx_spec _ hne).1
  · intro j hj
    by_cases hne : maskedQValues coef mask q = []
    · rw [hne] at hj
      simp at hj
    · exact (argmaxIdx_spec _ hne).2 j hj
  · intro i hmi hqi hmask hq
    have hlen : (maskedQValues coef mask q).length = min mask.length q.length := by
      rw [maskedQValues, List.length_zipWith]
    have hleni : i < (maskedQValues coef mask q).length := by
      rw [hlen]
      omega
    have hne : maskedQValues coef mask q ≠ [] := by
      intro hnil
      rw [hnil] at hleni
      simp at hleni
    obtain ⟨hbound, hmaxv⟩ := argmaxIdx_spec (maskedQValues coef mask q) hne
    rw [hlen] at hbound
    have hkm : argmaxIdx (maskedQValues coef mask q) < mask.length := by omega
    have hkq : argmaxIdx (maskedQValues coef mask q) < q.length := by omega
    have hvi : (maskedQValues coef mask q).getD i 0 = q.getD i 0 := by
      rw [maskedQValues, getD_zipWith_of_lt _ mask q i hmi hqi, hmask]
      simp
    have hvk : (maskedQValues coef mask q).getD (argmaxIdx (maskedQValues coef mask q)) 0
        = if mask.getD (argmaxIdx (maskedQValues coef mask q)) 0 = 1
          then q.getD (argmaxIdx (maskedQValues coef mask q)) 0 else coef :=
      getD_zipWith_of_lt _ mask q _ hkm hkq
    show mask.getD (argmaxIdx (maskedQValues coef mask q)) 0 = 1
    by_contra hneq
    rw [if_neg hneq] at hvk
    have hle := hmaxv i hleni
    rw [hvi, hvk] at hle
    omega

/-- Witness for C8: coefficient -15, mask `[1, 0]`, q-values `[3, 5]`: the
action with mask 1 and q-value 3 > -15 exists, so a mask-1 action is
selected. -/
theorem masked_argmax_prefers_legal_witness :
    ([1, 0] : List Int).getD (QNetwork.predictAction (-15) [1, 0] [3, 5]) 0 = 1 :=
  (masked_argmax_prefers_legal (-15) [1, 0] [3, 5]).2.2.1 0 (by decide) (by decide)
    (by decide) (by decide)
